import Mathlib

/-!
Verification of the `macos-alias` crate (src/lib.rs): a shallow embedding of
the alias-record binary encoder (`encode`, `apple_date`) and of the
volume-root locator (`find_volume`), together with theorems settling the
specified properties.

Modelling conventions:
* Rust `String` fields are modelled by their UTF-8 byte sequences
  (`List Nat`); `String::len` is the byte length, i.e. `List.length`.
* Machine integers are modelled as `Nat` (or `Int` for signed values), with
  truncation written explicitly (`% 256`, `% 65536`, ...) exactly where the
  Rust code performs an `as` cast or a fixed-width write.
* `SystemTime` values are modelled as `Int` milliseconds since the Unix
  epoch (a `SystemTime` may lie before the epoch; `duration_since` then
  fails and the `expect` call panics, modelled by `Option`).
* The output `Vec<u8>` written through `Cursor` is modelled by an explicit
  overwrite-at-position semantics (`writeBytes` / `runCursor`) over the
  zero-filled buffer `vec![0; total]` that the Rust code preallocates.
* Filesystem paths are modelled abstractly as their component lists with the
  innermost (deepest) component first, so that `Path::parent` is `List.tail`
  and `None` exactly on the empty list; filesystem metadata is an explicit
  oracle `FsPath → Except IoErr Stat`.
-/

namespace MacosAlias

/-- Big-endian byte pair written by `write_u16::<BigEndian>`.  A wider
argument is truncated modulo 2^16, matching Rust's `as u16` cast; for an
in-range argument the two bytes are the exact big-endian encoding. -/
def u16be (n : Nat) : List Nat :=
  [n / 256 % 256, n % 256]

/-- Big-endian byte quadruple written by `write_u32::<BigEndian>`, with the
same truncation convention as `u16be`. -/
def u32be (n : Nat) : List Nat :=
  [n / 16777216 % 256, n / 65536 % 256, n / 256 % 256, n % 256]

/-- Big-endian byte pair written by `write_i16::<BigEndian>`: the two's
complement representation of the signed argument. -/
def i16be (n : Int) : List Nat :=
  u16be (n % 65536).toNat

/-- Big-endian 16-bit read at byte offset `i` of a byte list (out-of-range
bytes read as 0). -/
def readU16be (l : List Nat) (i : Nat) : Nat :=
  256 * l.getD i 0 + l.getD (i + 1) 0

/-- Big-endian 32-bit read at byte offset `i` of a byte list. -/
def readU32be (l : List Nat) (i : Nat) : Nat :=
  16777216 * l.getD i 0 + 65536 * l.getD (i + 1) 0 + 256 * l.getD (i + 2) 0
    + l.getD (i + 3) 0

/-- `enum TargetType { File = 0, Directory = 1 }`. -/
inductive TargetType where
  | File
  | Directory
  deriving DecidableEq, Repr

/-- Discriminant of `TargetType` (`info.target.type_ as u16`). -/
def targetTypeCode : TargetType → Nat
  | .File => 0
  | .Directory => 1

/-- `enum VolumeType { Local = 0, Network, Floppy400, Floppy800, Floppy1400,
Other }`. -/
inductive VolumeType where
  | Local
  | Network
  | Floppy400
  | Floppy800
  | Floppy1400
  | Other
  deriving DecidableEq, Repr

/-- Discriminant of `VolumeType` (`info.volume.type_ as u16`). -/
def volumeTypeCode : VolumeType → Nat
  | .Local => 0
  | .Network => 1
  | .Floppy400 => 2
  | .Floppy800 => 3
  | .Floppy1400 => 4
  | .Other => 5

/-- `enum VolumeSignature { Bd, HPlus, Hx }`. -/
inductive VolumeSignature where
  | Bd
  | HPlus
  | Hx
  deriving DecidableEq, Repr

/-- UTF-8 bytes of `VolumeSignature::as_ref` (`"BD"`, `"H+"`, `"HX"`). -/
def signatureBytes : VolumeSignature → List Nat
  | .Bd => [66, 68]
  | .HPlus => [72, 43]
  | .Hx => [72, 88]

/-- `struct Target`; `filename` holds the UTF-8 bytes of the Rust `String`,
`created` is `SystemTime` as `Int` milliseconds since the Unix epoch. -/
structure Target where
  type_ : TargetType
  filename : List Nat
  id : Nat
  created : Int
  deriving DecidableEq, Repr

/-- `struct Volume`. -/
structure Volume where
  name : List Nat
  created : Int
  signature : VolumeSignature
  type_ : VolumeType
  deriving DecidableEq, Repr

/-- `struct Parent`. -/
structure Parent where
  id : Nat
  name : List Nat
  deriving DecidableEq, Repr

/-- `struct Extra { type_: i16, length: u16, data: Vec<u8> }`. -/
structure Extra where
  type_ : Int
  length : Nat
  data : List Nat
  deriving DecidableEq, Repr

/-- `struct Info`. -/
structure Info where
  version : Nat
  target : Target
  volume : Volume
  parent : Parent
  extra : List Extra
  deriving DecidableEq, Repr

/-- Error returned by `encode` (`Error::new(Status::GenericFailure, msg)`;
the spec calls this error kind `InvalidField`). -/
inductive EncodeError where
  | invalidField : String → EncodeError
  deriving DecidableEq, Repr

/-- Value of `apple_date` on a non-negative timestamp of `ms` milliseconds
since the Unix epoch.  The Rust body computes
`((ms as f64 - APPLE_EPOCH as f64) / 1000.0).round() as u32` with
`APPLE_EPOCH = -2082844800000`.  For every `ms : Nat` the double-precision
computation agrees exactly with integer arithmetic rounded half away from
zero and saturated at `2^32 - 1`:
* for `ms + 2082844800000 < 2^52` every intermediate value and every exact
  half-integer quotient is exactly representable, the relative error of the
  one inexact division is below the distance to the nearest half-integer,
  and `.round()` rounds half away from zero, so the result is
  `(ms + 2082844800000 + 500) / 1000` (integer division), and the
  `as u32` cast saturates at `4294967295`;
* for larger `ms` the quotient exceeds `2^32` by far more than the floating
  rounding error, so the saturated value `4294967295` is produced either
  way. -/
def apple_date (ms : Nat) : Nat :=
  min ((ms + 2082844800000 + 500) / 1000) 4294967295

/-- `apple_date` on a full `SystemTime` value: `duration_since(UNIX_EPOCH)`
fails for a time before the Unix epoch, and the `.expect("Time went
backwards")` call then panics, modelled as `none`. -/
def apple_dateChecked (t : Int) : Option Nat :=
  if t < 0 then none else some (apple_date t.toNat)

/-- Per-extra contribution to the buffer size:
`4 + e.length as usize + (e.length % 2) as usize`. -/
def extraSize (e : Extra) : Nat :=
  4 + e.length + e.length % 2

/-- `extra_length`: total size of the serialized extras,
`info.extra.iter().map(|e| 4 + e.length + e.length % 2).sum()`. -/
def extraLength (extra : List Extra) : Nat :=
  (extra.map extraSize).sum

/-- Total buffer size `base_length + extra_length + trailer_length`
computed by `encode`. -/
def totalSize (info : Info) : Nat :=
  150 + extraLength info.extra + 4

/-- One write through `Cursor<Vec<u8>>` at position `pos`: the bytes `bs`
overwrite the buffer starting at `pos`, extending it if they run past the
end. -/
def writeBytes (buf : List Nat) (pos : Nat) (bs : List Nat) : List Nat :=
  buf.take pos ++ bs ++ buf.drop (pos + bs.length)

/-- Sequence of cursor writes starting at position `pos`. -/
def runCursor (buf : List Nat) (pos : Nat) : List (List Nat) → List Nat
  | [] => buf
  | c :: cs => runCursor (writeBytes buf pos c) (pos + c.length) cs

/-- Bytes produced for one extra record: `write_i16` tag, `write_u16`
declared length, `write_all` of the data, and one zero byte when the
declared length is odd. -/
def extraChunk (e : Extra) : List Nat :=
  i16be e.type_ ++ u16be e.length ++ e.data
    ++ (if e.length % 2 = 1 then [0] else [])

/-- The cursor writes performed by `encode`, in source order, given the two
already-converted creation dates.  Each list entry is the byte sequence of
one `write_*` call (the per-extra writes are grouped into one entry each,
and the two trailer writes into two entries; `runCursor` only depends on
the concatenation). -/
def chunks (info : Info) (volDate targetDate : Nat) : List (List Nat) :=
  [u32be 0,
   u16be (totalSize info),
   u16be info.version,
   u16be (targetTypeCode info.target.type_),
   [info.volume.name.length % 256],
   info.volume.name,
   List.replicate (27 - info.volume.name.length) 0,
   u32be volDate,
   signatureBytes info.volume.signature,
   u16be (volumeTypeCode info.volume.type_),
   u32be info.parent.id,
   [info.target.filename.length % 256],
   info.target.filename,
   List.replicate (63 - info.target.filename.length) 0,
   u32be info.target.id,
   u32be targetDate,
   List.replicate 4 0,
   List.replicate 4 0,
   i16be (-1),
   i16be (-1),
   u32be 3330,
   u16be 0,
   List.replicate 10 0]
  ++ info.extra.map extraChunk
  ++ [i16be (-1), u16be 0]

/-- `fn encode(info: Info) -> Result<Vec<u8>>`.  The outer `Option` models
panics of `apple_date` (`none` = panic), the inner `Except` the returned
`Result`.  In the source the two field-length checks and the two
`apple_date` calls are interleaved with the cursor writes, in the order:
volume-name check (line 124), `apple_date(volume.created)` (line 136),
filename check (line 143), `apple_date(target.created)` (line 154); since
each depends only on the input and the partially written buffer is
discarded on early return, they are hoisted before the writes here, in
that same order.  All cursor writes are infallible (`Cursor<Vec<u8>>`
extends the buffer on overflow), so no other failure exists. -/
def encode (info : Info) : Option (Except EncodeError (List Nat)) :=
  if 27 < info.volume.name.length then
    some (.error (.invalidField "Volume name is not longer than 27 chars"))
  else
    match apple_dateChecked info.volume.created with
    | none => none
    | some volDate =>
      if 63 < info.target.filename.length then
        some (.error (.invalidField "File name is not longer than 63 chars"))
      else
        match apple_dateChecked info.target.created with
        | none => none
        | some targetDate =>
          some (.ok (runCursor (List.replicate (totalSize info) 0) 0
            (chunks info volDate targetDate)))

/-- The byte stream of a record accepted by `encode`: the concatenation of
all cursor writes (which, for a well-formed record, exactly fills the
preallocated buffer). -/
def aliasStream (info : Info) : List Nat :=
  (chunks info (apple_date info.volume.created.toNat)
    (apple_date info.target.created.toNat)).flatten

/-- The fixed 150-byte head of the stream: concatenation of the fixed-field
writes of `encode`, before the extras area. -/
def fixedFields (info : Info) : List Nat :=
  u32be 0 ++ u16be (totalSize info) ++ u16be info.version
  ++ u16be (targetTypeCode info.target.type_)
  ++ [info.volume.name.length % 256] ++ info.volume.name
  ++ List.replicate (27 - info.volume.name.length) 0
  ++ u32be (apple_date info.volume.created.toNat)
  ++ signatureBytes info.volume.signature
  ++ u16be (volumeTypeCode info.volume.type_)
  ++ u32be info.parent.id
  ++ [info.target.filename.length % 256] ++ info.target.filename
  ++ List.replicate (63 - info.target.filename.length) 0
  ++ u32be info.target.id ++ u32be (apple_date info.target.created.toNat)
  ++ List.replicate 4 0 ++ List.replicate 4 0
  ++ i16be (-1) ++ i16be (-1) ++ u32be 3330 ++ u16be 0
  ++ List.replicate 10 0

/-- Sum of the serialized sizes of the first `i` extras, i.e. the byte
offset of extra number `i` within the extras area of the stream. -/
def sizeBefore (extra : List Extra) (i : Nat) : Nat :=
  ((extra.take i).map extraSize).sum

/-- The 32-bit volume-creation-date field (byte offset 38) of an encoded
record, when encoding succeeds. -/
def encodedVolDate (info : Info) : Option Nat :=
  match encode info with
  | some (Except.ok out) => some (readU32be out 38)
  | _ => none

/-- The rounding formula stated by the spec for the timestamp conversion:
`round((t - (-2082844800000)) / 1000)` with halves rounded away from zero,
for a non-negative Unix-epoch millisecond timestamp `t` (for which
half-away-from-zero equals half-up). -/
def specNativeSeconds (t : Nat) : Nat :=
  (t + 2082844800000 + 500) / 1000

/-- A filesystem path, abstracted as its list of components with the
deepest component first, so that `Path::parent` is `List.tail` and is
undefined exactly on the empty list. -/
abbrev FsPath := List String

/-- The part of `std::fs::Metadata` used by `find_volume`:
`dev()` and `ino()`. -/
structure Stat where
  dev : Nat
  ino : Nat
  deriving DecidableEq, Repr

/-- An opaque `std::io::Error` value. -/
structure IoErr where
  code : Nat
  deriving DecidableEq, Repr

/-- The `loop` of `fn find_volume`, with the filesystem metadata calls
abstracted into the oracle `st`.  State: `last_path` (the matched list),
`last_dev`, `last_ino`.  An empty path has no parent and is returned
immediately; otherwise the parent's metadata is read, the device-change
and inode-fixed-point checks are made in source order, and the loop
recurses with the parent's identity. -/
def findVolumeLoop (st : FsPath → Except IoErr Stat) :
    FsPath → Nat → Nat → Except IoErr FsPath
  | [], _, _ => .ok []
  | c :: parentPath, lastDev, lastIno =>
    match st parentPath with
    | .error e => .error e
    | .ok parentStat =>
      if parentStat.dev ≠ lastDev then .ok (c :: parentPath)
      else if parentStat.ino = lastIno then .ok (c :: parentPath)
      else findVolumeLoop st parentPath parentStat.dev parentStat.ino

/-- `fn find_volume(start_path, start_stat)`. -/
def find_volume (st : FsPath → Except IoErr Stat) (startPath : FsPath)
    (startStat : Stat) : Except IoErr FsPath :=
  findVolumeLoop st startPath startStat.dev startStat.ino

/-- Fuel-indexed version of the unbounded `loop` of `find_volume`: `none`
means the fuel ran out before the loop returned.  Used to show the loop
terminates within `length + 1` iterations. -/
def findVolumeFuel (st : FsPath → Except IoErr Stat) :
    Nat → FsPath → Nat → Nat → Option (Except IoErr FsPath)
  | 0, _, _, _ => none
  | fuel + 1, p, lastDev, lastIno =>
    match p with
    | [] => some (.ok [])
    | c :: parentPath =>
      match st parentPath with
      | .error e => some (.error e)
      | .ok parentStat =>
        if parentStat.dev ≠ lastDev then some (.ok (c :: parentPath))
        else if parentStat.ino = lastIno then some (.ok (c :: parentPath))
        else findVolumeFuel st fuel parentPath parentStat.dev parentStat.ino

/-- Reference formulation of the volume-root search, following the words of
the claim: starting from the path and its own stat, return the current path
immediately when it has no parent; otherwise read the parent's metadata
(failing with the `IoError` if the read fails), return the current path as
soon as the parent's device id differs from the current path's device id or
the parent's inode equals the current path's inode, and otherwise continue
from the parent and its just-read identity. -/
def findVolumeRootSpec (st : FsPath → Except IoErr Stat) :
    FsPath → Stat → Except IoErr FsPath
  | [], _ => .ok []
  | c :: parentPath, cur =>
    match st parentPath with
    | .error e => .error e
    | .ok parentStat =>
      if parentStat.dev ≠ cur.dev ∨ parentStat.ino = cur.ino then
        .ok (c :: parentPath)
      else findVolumeRootSpec st parentPath parentStat

/-- Concrete well-formed record used to instantiate the encoder theorems:
version 2, file target `"Test"` (id 20), volume `"Vol"` signed `H+`, parent
id 19, one odd-length and one even-length extra. -/
def sampleInfo : Info where
  version := 2
  target := { type_ := .File, filename := [84, 101, 115, 116], id := 20,
              created := 1388686808000 }
  volume := { name := [86, 111, 108], created := 1388686804000,
              signature := .HPlus, type_ := .Other }
  parent := { id := 19, name := [112] }
  extra := [{ type_ := 0, length := 3, data := [97, 98, 99] },
            { type_ := 1, length := 4, data := [0, 0, 0, 19] }]

/-- Record with a 28-byte volume name, rejected by `encode`. -/
def longNameInfo : Info where
  version := 2
  target := { type_ := .File, filename := [84], id := 1, created := 0 }
  volume := { name := List.replicate 28 65, created := 0,
              signature := .HPlus, type_ := .Other }
  parent := { id := 1, name := [112] }
  extra := []

/-- Record whose volume creation time is the first millisecond timestamp at
which the rounded native-epoch value no longer fits in 32 bits. -/
def lateDateInfo : Info where
  version := 2
  target := { type_ := .File, filename := [], id := 0, created := 0 }
  volume := { name := [], created := 2212122495500,
              signature := .HPlus, type_ := .Other }
  parent := { id := 0, name := [] }
  extra := []

/-- Concrete metadata oracle used to instantiate the locator theorems:
every path lives on device 0 with its component count as inode. -/
def statOracle : FsPath → Except IoErr Stat :=
  fun p => Except.ok ⟨0, p.length⟩

/-! ### Byte-level helper lemmas -/

theorem length_u16be (n : Nat) : (u16be n).length = 2 := rfl

theorem length_u32be (n : Nat) : (u32be n).length = 4 := rfl

theorem length_i16be (n : Int) : (i16be n).length = 2 := rfl

theorem length_signatureBytes (s : VolumeSignature) :
    (signatureBytes s).length = 2 := by
  cases s <;> rfl

theorem i16be_neg_one : i16be (-1) = [255, 255] := by decide

theorem u16be_zero : u16be 0 = [0, 0] := by decide

theorem u32be_zero : u32be 0 = [0, 0, 0, 0] := by decide

theorem drop_append_add (A B : List Nat) (k : Nat) :
    (A ++ B).drop (A.length + k) = B.drop k := by
  induction A with
  | nil => simp
  | cons a A ih => simpa only [List.cons_append, List.length_cons,
      Nat.succ_add, List.drop_succ_cons] using ih

theorem drop_length_append (G T : List Nat) :
    (G ++ T).drop ((G ++ T).length - T.length) = T := by
  rw [List.length_append, Nat.add_sub_cancel]
  exact List.drop_left _ _

/-- Sequential cursor writes starting inside the buffer concatenate: the
result is the untouched head, then all written bytes, then whatever part of
the original buffer lies past the written region. -/
theorem runCursor_flatten :
    ∀ (cs : List (List Nat)) (buf : List Nat) (pos : Nat), pos ≤ buf.length →
      runCursor buf pos cs =
        buf.take pos ++ cs.flatten ++ buf.drop (pos + cs.flatten.length) := by
  intro cs
  induction cs with
  | nil => intro buf pos h; simp [runCursor]
  | cons c cs ih =>
    intro buf pos h
    have hA : (buf.take pos).length = pos := by
      simp [List.length_take]; omega
    have hW : writeBytes buf pos c =
        (buf.take pos ++ c) ++ buf.drop (pos + c.length) := by
      simp [writeBytes, List.append_assoc]
    have hAC : (buf.take pos ++ c).length = pos + c.length := by
      simp [hA]
    have hlen : pos + c.length ≤ (writeBytes buf pos c).length := by
      rw [hW, List.length_append, hAC]
      omega
    rw [runCursor, ih _ _ hlen]
    have h1 : (writeBytes buf pos c).take (pos + c.length) = buf.take pos ++ c := by
      rw [hW, ← hAC, List.take_left]
    have h2 : (writeBytes buf pos c).drop (pos + c.length + cs.flatten.length) =
        buf.drop (pos + c.length + cs.flatten.length) := by
      rw [hW]
      rw [show pos + c.length + cs.flatten.length
            = (buf.take pos ++ c).length + cs.flatten.length by rw [hAC]]
      rw [drop_append_add, List.drop_drop]
      congr 1
      omega
    rw [h1, h2]
    simp only [List.flatten_cons, List.length_append, List.append_assoc,
      Nat.add_assoc]

/-! ### Stream shape lemmas -/

theorem length_extraChunk (e : Extra) (h : e.data.length = e.length) :
    (extraChunk e).length = extraSize e := by
  rcases Nat.mod_two_eq_zero_or_one e.length with h2 | h2 <;>
    simp [extraChunk, extraSize, h, h2, length_i16be, length_u16be] <;>
    omega

theorem length_extrasFlatten (l : List Extra)
    (h : ∀ e ∈ l, e.data.length = e.length) :
    ((l.map extraChunk).flatten).length = extraLength l := by
  induction l with
  | nil => simp [extraLength]
  | cons e l ih =>
    have he := h e (List.mem_cons_self e l)
    have ih' := ih (fun x hx => h x (List.mem_cons_of_mem e hx))
    simp only [List.map_cons, List.flatten_cons, List.length_append,
      extraLength, List.sum_cons] at *
    rw [length_extraChunk e he, ih']

theorem length_chunksFlatten (info : Info) (vd td : Nat)
    (h27 : info.volume.name.length ≤ 27)
    (h63 : info.target.filename.length ≤ 63)
    (hwf : ∀ e ∈ info.extra, e.data.length = e.length) :
    ((chunks info vd td).flatten).length = totalSize info := by
  simp only [chunks, List.flatten_append, List.flatten_cons, List.flatten_nil,
    List.length_append, List.length_cons, List.length_nil,
    List.length_replicate, length_u16be, length_u32be, length_i16be,
    length_signatureBytes, length_extrasFlatten _ hwf, totalSize]
  omega

theorem apple_dateChecked_nonneg (t : Int) (h : 0 ≤ t) :
    apple_dateChecked t = some (apple_date t.toNat) := by
  unfold apple_dateChecked
  rw [if_neg (by omega)]

/-- `encode` on a record passing both length checks and both panic guards,
before normalizing the cursor writes. -/
theorem encode_eq_run (info : Info)
    (h27 : info.volume.name.length ≤ 27)
    (h63 : info.target.filename.length ≤ 63)
    (hv : 0 ≤ info.volume.created) (ht : 0 ≤ info.target.created) :
    encode info = some (.ok (runCursor (List.replicate (totalSize info) 0) 0
      (chunks info (apple_date info.volume.created.toNat)
        (apple_date info.target.created.toNat)))) := by
  have h1 : ¬ 27 < info.volume.name.length := by omega
  have h2 : ¬ 63 < info.target.filename.length := by omega
  simp only [encode, if_neg h1, if_neg h2, apple_dateChecked_nonneg _ hv,
    apple_dateChecked_nonneg _ ht]

/-- `encode` on a well-formed record: the preallocated buffer is exactly
filled, so the output is the concatenation of all writes. -/
theorem encode_eq_ok (info : Info)
    (h27 : info.volume.name.length ≤ 27)
    (h63 : info.target.filename.length ≤ 63)
    (hv : 0 ≤ info.volume.created) (ht : 0 ≤ info.target.created)
    (hwf : ∀ e ∈ info.extra, e.data.length = e.length) :
    encode info = some (.ok (aliasStream info)) := by
  rw [encode_eq_run info h27 h63 hv ht]
  rw [runCursor_flatten _ _ _ (by simp)]
  rw [length_chunksFlatten info _ _ h27 h63 hwf]
  rw [List.take_zero, Nat.zero_add, List.drop_replicate, Nat.sub_self,
    List.replicate_zero, List.nil_append, List.append_nil]
  rfl

theorem aliasStream_split (info : Info) :
    aliasStream info = fixedFields info
      ++ ((info.extra.map extraChunk).flatten ++ [255, 255, 0, 0]) := by
  simp [aliasStream, chunks, fixedFields, List.flatten_append,
    List.flatten_cons, List.append_assoc, i16be_neg_one, u16be_zero]

theorem length_fixedFields (info : Info)
    (h27 : info.volume.name.length ≤ 27)
    (h63 : info.target.filename.length ≤ 63) :
    (fixedFields info).length = 150 := by
  simp only [fixedFields, List.length_append, List.length_cons,
    List.length_nil, List.length_replicate, length_u16be, length_u32be,
    length_i16be, length_signatureBytes]
  omega

theorem length_aliasStream (info : Info)
    (h27 : info.volume.name.length ≤ 27)
    (h63 : info.target.filename.length ≤ 63)
    (hwf : ∀ e ∈ info.extra, e.data.length = e.length) :
    (aliasStream info).length = totalSize info :=
  length_chunksFlatten info _ _ h27 h63 hwf

/-- Positional content of the extras area: dropping the sizes of the first
`i` extras lands exactly on the serialized form of extra `i`. -/
theorem extras_drop_take (tail : List Nat) :
    ∀ (l : List Extra), (∀ e ∈ l, e.data.length = e.length) →
      ∀ i e, l[i]? = some e →
        (((l.map extraChunk).flatten ++ tail).drop (sizeBefore l i)).take
            (4 + e.length + e.length % 2) =
          i16be e.type_ ++ u16be e.length ++ e.data
            ++ (if e.length % 2 = 1 then [0] else []) := by
  intro l
  induction l with
  | nil => intro _ i e h; simp at h
  | cons e0 l ih =>
    intro hwf i e hi
    cases i with
    | zero =>
      rw [List.getElem?_cons_zero] at hi
      obtain rfl : e0 = e := by injection hi
      have hlen : (extraChunk e0).length = 4 + e0.length + e0.length % 2 :=
        length_extraChunk e0 (hwf e0 (List.mem_cons_self e0 l))
      simp only [sizeBefore, List.take_zero, List.map_nil, List.sum_nil,
        List.map_cons, List.flatten_cons, List.drop_zero, List.append_assoc]
      rw [← hlen, List.take_left]
      simp [extraChunk, List.append_assoc]
    | succ i =>
      rw [List.getElem?_cons_succ] at hi
      have h0 : (extraChunk e0).length = extraSize e0 :=
        length_extraChunk e0 (hwf e0 (List.mem_cons_self e0 l))
      have hs : sizeBefore (e0 :: l) (i + 1) =
          (extraChunk e0).length + sizeBefore l i := by
        simp [sizeBefore, List.take_succ_cons, h0]
      rw [hs]
      simp only [List.map_cons, List.flatten_cons, List.append_assoc]
      rw [drop_append_add]
      exact ih (fun x hx => hwf x (List.mem_cons_of_mem e0 hx)) i e hi

/-! ### Claim theorems: encoder -/

/-- C1: for every record whose volume name is at most 27 bytes, whose
target filename is at most 63 bytes, whose every extra's data is exactly
its declared length, and whose total size is below 65536 (with creation
timestamps at or after the Unix epoch, the ambient precondition of C9),
`encode` succeeds, the output length is
`150 + Σ (4 + length + length % 2) + 4`, and the big-endian 16-bit field
at byte offset 4 equals that same total. -/
theorem spec_C1_length (info : Info)
    (h27 : info.volume.name.length ≤ 27)
    (h63 : info.target.filename.length ≤ 63)
    (hv : 0 ≤ info.volume.created) (ht : 0 ≤ info.target.created)
    (hwf : ∀ e ∈ info.extra, e.data.length = e.length)
    (htot : 150 + extraLength info.extra + 4 < 65536) :
    ∃ out, encode info = some (Except.ok out) ∧
      out.length = 150 + extraLength info.extra + 4 ∧
      readU16be out 4 = 150 + extraLength info.extra + 4 := by
  refine ⟨aliasStream info, encode_eq_ok info h27 h63 hv ht hwf, ?_, ?_⟩
  · exact length_aliasStream info h27 h63 hwf
  · rw [aliasStream_split info]
    simp only [fixedFields, u32be_zero, u16be, totalSize, List.cons_append,
      List.nil_append, readU16be, List.getD_cons_succ, List.getD_cons_zero]
    omega

theorem spec_C1_witness :
    ∃ out, encode sampleInfo = some (Except.ok out) ∧
      out.length = 150 + extraLength sampleInfo.extra + 4 ∧
      readU16be out 4 = 150 + extraLength sampleInfo.extra + 4 :=
  spec_C1_length sampleInfo (by decide) (by decide) (by decide) (by decide)
    (by decide) (by decide)

/-- C2: for every record accepted by `encode` (stated via the acceptance
conditions: both length limits, both timestamps at or after the epoch, and
each extra's data of exactly its declared length), the fixed 150-byte head
of the output is, in order and big-endian: 4 zero bytes, 16-bit total
length, 16-bit version, 16-bit target kind (0 = file, 1 = directory), the
28-byte volume-name block (1 length byte, name, zero padding to 27 data
bytes), 32-bit volume creation date, the 2 ASCII signature bytes, 16-bit
volume type, 32-bit parent id, the 64-byte filename block (1 length byte,
name, zero padding to 63 data bytes), 32-bit target id, 32-bit target
creation date, 4 + 4 zero bytes (file type, creator), two signed 16-bit
-1 fields, the 32-bit constant 3330, a 16-bit 0, and 10 zero bytes. -/
theorem spec_C2_fixed_layout (info : Info)
    (h27 : info.volume.name.length ≤ 27)
    (h63 : info.target.filename.length ≤ 63)
    (hv : 0 ≤ info.volume.created) (ht : 0 ≤ info.target.created)
    (hwf : ∀ e ∈ info.extra, e.data.length = e.length) :
    ∃ out, encode info = some (Except.ok out) ∧
      out.take 150 =
        u32be 0 ++ u16be (totalSize info) ++ u16be info.version
        ++ u16be (targetTypeCode info.target.type_)
        ++ [info.volume.name.length % 256] ++ info.volume.name
        ++ List.replicate (27 - info.volume.name.length) 0
        ++ u32be (apple_date info.volume.created.toNat)
        ++ signatureBytes info.volume.signature
        ++ u16be (volumeTypeCode info.volume.type_)
        ++ u32be info.parent.id
        ++ [info.target.filename.length % 256] ++ info.target.filename
        ++ List.replicate (63 - info.target.filename.length) 0
        ++ u32be info.target.id
        ++ u32be (apple_date info.target.created.toNat)
        ++ List.replicate 4 0 ++ List.replicate 4 0
        ++ i16be (-1) ++ i16be (-1) ++ u32be 3330 ++ u16be 0
        ++ List.replicate 10 0 := by
  refine ⟨aliasStream info, encode_eq_ok info h27 h63 hv ht hwf, ?_⟩
  rw [aliasStream_split info]
  rw [show (150 : Nat) = (fixedFields info).length from
    (length_fixedFields info h27 h63).symm]
  rw [List.take_left]
  simp [fixedFields, List.append_assoc]

theorem spec_C2_witness :
    ∃ out, encode sampleInfo = some (Except.ok out) ∧
      out.take 150 =
        u32be 0 ++ u16be (totalSize sampleInfo) ++ u16be sampleInfo.version
        ++ u16be (targetTypeCode sampleInfo.target.type_)
        ++ [sampleInfo.volume.name.length % 256] ++ sampleInfo.volume.name
        ++ List.replicate (27 - sampleInfo.volume.name.length) 0
        ++ u32be (apple_date sampleInfo.volume.created.toNat)
        ++ signatureBytes sampleInfo.volume.signature
        ++ u16be (volumeTypeCode sampleInfo.volume.type_)
        ++ u32be sampleInfo.parent.id
        ++ [sampleInfo.target.filename.length % 256]
        ++ sampleInfo.target.filename
        ++ List.replicate (63 - sampleInfo.target.filename.length) 0
        ++ u32be sampleInfo.target.id
        ++ u32be (apple_date sampleInfo.target.created.toNat)
        ++ List.replicate 4 0 ++ List.replicate 4 0
        ++ i16be (-1) ++ i16be (-1) ++ u32be 3330 ++ u16be 0
        ++ List.replicate 10 0 :=
  spec_C2_fixed_layout sampleInfo (by decide) (by decide) (by decide)
    (by decide) (by decide)

/-- C3: under the C9 precondition (timestamps at or after the epoch),
`encode` fails with an `InvalidField` error exactly when the volume name
exceeds 27 bytes or the target filename exceeds 63 bytes; at exactly 27
and 63 bytes it still succeeds, and on failure only the error value is
produced (the `Except.error` constructor carries no byte sequence). -/
theorem spec_C3_invalid_field (info : Info)
    (hv : 0 ≤ info.volume.created) (ht : 0 ≤ info.target.created) :
    ((∃ msg, encode info = some (Except.error (EncodeError.invalidField msg)))
        ↔ 27 < info.volume.name.length ∨ 63 < info.target.filename.length) ∧
    (info.volume.name.length ≤ 27 → info.target.filename.length ≤ 63 →
      ∃ out, encode info = some (Except.ok out)) := by
  constructor
  · constructor
    · rintro ⟨msg, hmsg⟩
      by_contra hcon
      push_neg at hcon
      rw [encode_eq_run info (by omega) (by omega) hv ht] at hmsg
      simp at hmsg
    · rintro (h | h)
      · exact ⟨"Volume name is not longer than 27 chars", by
          simp only [encode, if_pos h]⟩
      · by_cases h27 : 27 < info.volume.name.length
        · exact ⟨"Volume name is not longer than 27 chars", by
            simp only [encode, if_pos h27]⟩
        · exact ⟨"File name is not longer than 63 chars", by
            simp only [encode, if_neg h27, apple_dateChecked_nonneg _ hv,
              if_pos h]⟩
  · intro h27 h63
    exact ⟨_, encode_eq_run info h27 h63 hv ht⟩

theorem spec_C3_witness :
    ∃ msg, encode longNameInfo
      = some (Except.error (EncodeError.invalidField msg)) :=
  (spec_C3_invalid_field longNameInfo (by decide) (by decide)).1.mpr
    (Or.inl (by decide))

/-- C5, counterexample: at the millisecond timestamp 2212122495500 the
spec formula rounds to 2^32, which does not fit the 32-bit field; the code
saturates the cast and writes 4294967295, so the claimed equality between
the written creation-date value and the rounding formula fails. -/
theorem spec_C5_counterexample :
    apple_date 2212122495500 ≠ specNativeSeconds 2212122495500 ∧
    encodedVolDate lateDateInfo = some 4294967295 ∧
    specNativeSeconds 2212122495500 = 4294967296 := by
  refine ⟨by decide, ?_, by decide⟩
  decide

/-- C5, amended: for every creation timestamp of `t` milliseconds since
the Unix epoch with `t ≤ 2212122495499` (so that the rounded native-epoch
value fits in 32 bits), the value written by the encoder's timestamp
conversion equals `round((t - (-2082844800000)) / 1000)` with the
half-second boundary rounded away from zero; for larger `t` the `as u32`
cast saturates at `2^32 - 1`.  In particular the spec's example input
1388686804000 maps to the value the formula yields (3471531604). -/
theorem spec_C5_rounding (t : Nat) (h : t ≤ 2212122495499) :
    apple_date t = specNativeSeconds t := by
  unfold apple_date specNativeSeconds
  exact Nat.min_eq_left (by omega)

theorem spec_C5_witness :
    1388686804000 ≤ 2212122495499 ∧
    apple_date 1388686804000 = specNativeSeconds 1388686804000 ∧
    specNativeSeconds 1388686804000 = 3471531604 :=
  ⟨by decide, spec_C5_rounding 1388686804000 (by decide), by decide⟩

/-- C6: for every record accepted by `encode` (stated via the acceptance
conditions), each extra `e` occupies, at its position in the stream (byte
offset 150 plus the serialized sizes of the preceding extras), exactly its
2-byte big-endian signed tag, 2-byte big-endian declared length, the data
bytes verbatim, and one zero padding byte exactly when the declared length
is odd. -/
theorem spec_C6_extra_layout (info : Info)
    (h27 : info.volume.name.length ≤ 27)
    (h63 : info.target.filename.length ≤ 63)
    (hv : 0 ≤ info.volume.created) (ht : 0 ≤ info.target.created)
    (hwf : ∀ e ∈ info.extra, e.data.length = e.length) :
    ∃ out, encode info = some (Except.ok out) ∧
      ∀ i e, info.extra[i]? = some e →
        (out.drop (150 + sizeBefore info.extra i)).take
            (4 + e.length + e.length % 2) =
          i16be e.type_ ++ u16be e.length ++ e.data
            ++ (if e.length % 2 = 1 then [0] else []) := by
  refine ⟨aliasStream info, encode_eq_ok info h27 h63 hv ht hwf, ?_⟩
  intro i e hi
  rw [aliasStream_split info]
  rw [show 150 + sizeBefore info.extra i
        = (fixedFields info).length + sizeBefore info.extra i by
      rw [length_fixedFields info h27 h63]]
  rw [drop_append_add]
  exact extras_drop_take _ info.extra hwf i e hi

theorem spec_C6_witness :
    ∃ out, encode sampleInfo = some (Except.ok out) ∧
      ∀ i e, sampleInfo.extra[i]? = some e →
        (out.drop (150 + sizeBefore sampleInfo.extra i)).take
            (4 + e.length + e.length % 2) =
          i16be e.type_ ++ u16be e.length ++ e.data
            ++ (if e.length % 2 = 1 then [0] else []) :=
  spec_C6_extra_layout sampleInfo (by decide) (by decide) (by decide)
    (by decide) (by decide)

/-- C7: for every record accepted by `encode` (stated via the acceptance
conditions), and for any extras list including the empty one, the last
four bytes of the output are `FF FF 00 00` — the terminator the encoder
appends itself (signed 16-bit -1, then unsigned 16-bit 0). -/
theorem spec_C7_terminator (info : Info)
    (h27 : info.volume.name.length ≤ 27)
    (h63 : info.target.filename.length ≤ 63)
    (hv : 0 ≤ info.volume.created) (ht : 0 ≤ info.target.created)
    (hwf : ∀ e ∈ info.extra, e.data.length = e.length) :
    ∃ out, encode info = some (Except.ok out) ∧
      out.drop (out.length - 4) = [255, 255, 0, 0] := by
  refine ⟨aliasStream info, encode_eq_ok info h27 h63 hv ht hwf, ?_⟩
  rw [aliasStream_split info, ← List.append_assoc]
  simpa using drop_length_append
    (fixedFields info ++ (info.extra.map extraChunk).flatten) [255, 255, 0, 0]

theorem spec_C7_witness :
    ∃ out, encode sampleInfo = some (Except.ok out) ∧
      out.drop (out.length - 4) = [255, 255, 0, 0] :=
  spec_C7_terminator sampleInfo (by decide) (by decide) (by decide)
    (by decide) (by decide)

/-- C9: the timestamp conversion panics (models as `none`) exactly for
timestamps before the Unix epoch, and under the precondition that both
creation timestamps are at or after the epoch the panic branch of the
encoder is unreachable: `encode` never returns the panic value. -/
theorem spec_C9_epoch_precondition :
    (∀ t : Int, apple_dateChecked t = none ↔ t < 0) ∧
    ∀ info : Info, 0 ≤ info.volume.created → 0 ≤ info.target.created →
      encode info ≠ none := by
  constructor
  · intro t
    unfold apple_dateChecked
    split <;> simp_all
  · intro info hv ht
    by_cases h27 : 27 < info.volume.name.length
    · simp [encode, if_pos h27]
    · by_cases h63 : 63 < info.target.filename.length
      · simp [encode, if_neg h27, apple_dateChecked_nonneg _ hv, if_pos h63]
      · rw [encode_eq_run info (by omega) (by omega) hv ht]
        simp

theorem spec_C9_witness : encode sampleInfo ≠ none :=
  spec_C9_epoch_precondition.2 sampleInfo (by decide) (by decide)

/-! ### Claim theorems: volume locator -/

/-- C4: `find_volume` agrees, for every metadata oracle, starting path and
starting stat, with the claim's characterization `findVolumeRootSpec`:
return the path itself immediately when it has no parent; otherwise walk
upward one ancestor at a time carrying the current identity, returning the
last visited path as soon as it has no parent, or its parent's device id
differs from its own, or its parent's inode equals its own; and fail with
the `IoError` as soon as an ancestor's metadata read fails. -/
theorem spec_C4_refinement (st : FsPath → Except IoErr Stat) (p : FsPath)
    (s : Stat) : find_volume st p s = findVolumeRootSpec st p s := by
  unfold find_volume
  induction p generalizing s with
  | nil => rfl
  | cons c pp ih =>
    rw [findVolumeLoop, findVolumeRootSpec]
    cases hst : st pp with
    | error e => rfl
    | ok ps =>
      dsimp only
      by_cases h1 : ps.dev ≠ s.dev
      · rw [if_pos h1, if_pos (Or.inl h1)]
      · by_cases h2 : ps.ino = s.ino
        · rw [if_neg h1, if_pos h2, if_pos (Or.inr h2)]
        · rw [if_neg h1, if_neg h2,
            if_neg (by rintro (hc | hc) <;> exact absurd hc (by assumption))]
          exact ih ps

/-- Fixed-point property of the loop: if the loop, started consistently
with the oracle, returns `r`, then the oracle succeeds on `r` and the loop
restarted at `r` with `r`'s own identity returns `r` again. -/
theorem findVolumeLoop_fixedPoint (st : FsPath → Except IoErr Stat) :
    ∀ (p : FsPath) (dev ino : Nat) (r : FsPath),
      st p = Except.ok ⟨dev, ino⟩ → findVolumeLoop st p dev ino = Except.ok r →
      ∃ sr, st r = Except.ok sr ∧
        findVolumeLoop st r sr.dev sr.ino = Except.ok r := by
  intro p
  induction p with
  | nil =>
    intro dev ino r hst hr
    rw [findVolumeLoop] at hr
    obtain rfl : ([] : FsPath) = r := by injection hr
    exact ⟨⟨dev, ino⟩, hst, rfl⟩
  | cons c pp ih =>
    intro dev ino r hst hr
    rw [findVolumeLoop] at hr
    cases hstp : st pp with
    | error e => rw [hstp] at hr; cases hr
    | ok ps =>
      rw [hstp] at hr
      dsimp only at hr
      by_cases h1 : ps.dev ≠ dev
      · rw [if_pos h1] at hr
        obtain rfl : c :: pp = r := by injection hr
        refine ⟨⟨dev, ino⟩, hst, ?_⟩
        rw [findVolumeLoop, hstp]
        dsimp only
        rw [if_pos h1]
      · rw [if_neg h1] at hr
        by_cases h2 : ps.ino = ino
        · rw [if_pos h2] at hr
          obtain rfl : c :: pp = r := by injection hr
          refine ⟨⟨dev, ino⟩, hst, ?_⟩
          rw [findVolumeLoop, hstp]
          dsimp only
          rw [if_neg h1, if_pos h2]
        · rw [if_neg h2] at hr
          exact ih ps.dev ps.ino r (by rw [hstp]) hr

/-- C8: for every deterministic metadata oracle and every starting path
whose supplied stat agrees with the oracle, a successful result `r` of the
volume-root search is a fixed point: the oracle succeeds on `r`, and
searching again from `r` with its own stat returns `r` itself. -/
theorem spec_C8_fixed_point (st : FsPath → Except IoErr Stat) (p : FsPath)
    (s : Stat) (r : FsPath) (hp : st p = Except.ok s)
    (hr : find_volume st p s = Except.ok r) :
    ∃ sr, st r = Except.ok sr ∧ find_volume st r sr = Except.ok r := by
  obtain ⟨sr, h1, h2⟩ :=
    findVolumeLoop_fixedPoint st p s.dev s.ino r (by rw [hp]) hr
  exact ⟨sr, h1, h2⟩

theorem spec_C8_witness :
    ∃ sr, statOracle [] = Except.ok sr ∧
      find_volume statOracle [] sr = Except.ok [] :=
  spec_C8_fixed_point statOracle ["x"] ⟨0, 1⟩ [] rfl rfl

/-- C10: the walking loop of `find_volume` terminates on every input: with
any fuel exceeding the number of path components, the fuel-indexed
rendition of the unbounded `loop` never exhausts its fuel and returns
exactly the value of the total function `findVolumeLoop` (each iteration
moves to the parent, which has one component fewer). -/
theorem spec_C10_termination (st : FsPath → Except IoErr Stat) (p : FsPath)
    (dev ino : Nat) :
    ∀ fuel, p.length < fuel →
      findVolumeFuel st fuel p dev ino = some (findVolumeLoop st p dev ino) := by
  induction p generalizing dev ino with
  | nil =>
    intro fuel h
    match fuel, h with
    | fuel + 1, _ => rfl
  | cons c pp ih =>
    intro fuel h
    match fuel, h with
    | fuel + 1, h =>
      rw [findVolumeFuel, findVolumeLoop]
      cases hst : st pp with
      | error e => rfl
      | ok ps =>
        dsimp only
        by_cases h1 : ps.dev ≠ dev
        · rw [if_pos h1, if_pos h1]
        · by_cases h2 : ps.ino = ino
          · rw [if_neg h1, if_neg h1, if_pos h2, if_pos h2]
          · rw [if_neg h1, if_neg h1, if_neg h2, if_neg h2]
            exact ih ps.dev ps.ino fuel (by simp at h; omega)

theorem spec_C10_witness :
    findVolumeFuel statOracle 2 ["x"] 0 1
      = some (findVolumeLoop statOracle ["x"] 0 1) :=
  spec_C10_termination statOracle ["x"] 0 1 2 (by decide)

end MacosAlias
